import Mathlib

/-!
# Link attachment wrappers and the fentry example of the ebpf library

A shallow embedding of

* `link/netns.go`: `AttachNetNs`, `LoadPinnedNetNs`;
* `examples/fentry/main.go`: `intToIP` and the event loop of `main`;
* the iterator stream of `link` as exercised by `link/iter_test.go`.

Go values of type `(*T, error)` are pairs of options (`none` is `nil`), a nil
pointer dereference is the outcome `panic`, and calls that leave the package
(`AttachRawLink`, `LoadPinnedRawLink`) are answered by an oracle carried in an
explicit `World`, which also records every such call in order.
-/

namespace Ebpf

/-! ## Types of package `ebpf` used by the wrappers -/

/-- Modelled from the spec: `ebpf.ProgramType` is declared in a file that is not
among the sources. The constants the sources name (`FlowDissector`, `SkLookup`,
`Tracing`) are constructors; every other program type is `other code`. -/
inductive ProgramType where
  | FlowDissector
  | SkLookup
  | Tracing
  | other (code : Nat)
  deriving DecidableEq, Repr

/-- Modelled from the spec: `ebpf.AttachType` is declared in a file that is not
among the sources. The constants the sources name are constructors; every other
attach type is `other code`. -/
inductive AttachType where
  | AttachFlowDissector
  | AttachSkLookup
  | AttachTraceIter
  | other (code : Nat)
  deriving DecidableEq, Repr

/-- Modelled from the spec: `ebpf.Program` is declared in a file that is not
among the sources. Section 6 of the spec gives a loaded program an identity, a
program type and an expected attach type. A `*ebpf.Program` argument is taken
to point at such a value. -/
structure Program where
  id : Nat
  typ : ProgramType
  expectedAttachType : AttachType
  deriving DecidableEq, Repr

/-- Modelled from the spec: the method `(*ebpf.Program).Type`, which queries the
program type of a loaded program (`Type` alone is a reserved word here, hence
the underscore). -/
def Program.Type_ (p : Program) : ProgramType := p.typ

/-- Modelled from the spec: `ebpf.LoadPinOptions` is declared in a file that is
not among the sources; the wrappers only forward it. -/
structure LoadPinOptions where
  flags : Nat
  deriving DecidableEq, Repr

/-! ## Errors -/

/-- A Go `error` value. `Errorf` is the value built by `fmt.Errorf` with a
format without `%w` and one `%v` argument (netns.go:23). The other
constructors are modelled from the spec (section 7), with `Wrap` an error that
wraps another one, as `errors.Is` can see through. -/
inductive Error where
  | Errorf (format : String) (arg : ProgramType)
  | NotSupported
  | InvalidArgument
  | NotFound
  | WrongType
  | AlreadyPinned
  | ErrClosed
  | Errno (code : Nat)
  | Wrap (msg : String) (inner : Error)
  deriving DecidableEq, Repr

/-! ## Package `link` -/

/-- Modelled from the spec: lifecycle status of a link (section 3). -/
inductive LinkStatus where
  | Open
  | Pinned
  | Closed
  deriving DecidableEq, Repr

/-- Modelled from the spec: `RawLink` is declared in a file that is not among the
sources. Section 3 of the spec gives a link a descriptor-like reference to a
kernel object and a lifecycle status. -/
structure RawLink where
  fd : Nat
  status : LinkStatus
  deriving DecidableEq, Repr

/-- Modelled from the spec: the link kinds `LoadPinnedRawLink` can be asked for;
`NetNsType` is the one netns.go names. -/
inductive LinkType where
  | NetNsType
  | TracingType
  | IterType
  | other (code : Nat)
  deriving DecidableEq, Repr

/-- The fields of `RawLinkOptions` that netns.go:26-30 sets; the struct itself is
declared in a file that is not among the sources, and its other fields keep
their zero value. -/
structure RawLinkOptions where
  Target : Int
  Program : Program
  Attach : AttachType
  deriving DecidableEq, Repr

/-- NetNsLink is a program attached to a network namespace (netns.go:10-12):
a struct embedding a `RawLink`. -/
structure NetNsLink where
  RawLink : RawLink
  deriving DecidableEq, Repr

/-- A call that leaves the wrappers. `AttachRawLink` and `LoadPinnedRawLink` are
the two calls netns.go makes. `RawAttachProgram` is modelled from the spec
(section 4.3): the attach call of the fallback link, bound to the target. -/
inductive Call where
  | AttachRawLink (opts : RawLinkOptions)
  | LoadPinnedRawLink (fileName : String) (typ : LinkType) (opts : Option LoadPinOptions)
  | RawAttachProgram (target : Int) (prog : Program) (attach : AttachType)
  deriving DecidableEq, Repr

/-- The world outside the wrappers: the calls made so far, oldest first, and an
oracle giving the `(*RawLink, error)` pair a call returns after a given
history. -/
structure World where
  trace : List Call
  oracle : List Call → Call → Option RawLink × Option Error

/-- `AttachRawLink` is declared in a file that is not among the sources: its
result is the oracle's answer and the call is appended to the trace. -/
def AttachRawLink (opts : RawLinkOptions) (w : World) :
    (Option RawLink × Option Error) × World :=
  (w.oracle w.trace (.AttachRawLink opts),
    { w with trace := w.trace ++ [.AttachRawLink opts] })

/-- `LoadPinnedRawLink` is declared in a file that is not among the sources: its
result is the oracle's answer and the call is appended to the trace. -/
def LoadPinnedRawLink (fileName : String) (typ : LinkType) (opts : Option LoadPinOptions)
    (w : World) : (Option RawLink × Option Error) × World :=
  (w.oracle w.trace (.LoadPinnedRawLink fileName typ opts),
    { w with trace := w.trace ++ [.LoadPinnedRawLink fileName typ opts] })

/-- What a Go function of result type `(*α, error)` does: it returns a pair, or
the goroutine panics on a nil pointer dereference. -/
inductive Outcome (α : Type) where
  | ret (value : Option α) (err : Option Error)
  | panic
  deriving DecidableEq, Repr

/-- AttachNetNs attaches a program to a network namespace (netns.go:15-36). -/
def AttachNetNs (ns : Int) (prog : Program) (w : World) : Outcome NetNsLink × World :=
  let t := prog.Type_
  let attach : Option AttachType :=
    match t with
    | .FlowDissector => some .AttachFlowDissector
    | .SkLookup => some .AttachSkLookup
    | _ => none
  match attach with
  | none => (.ret none (some (.Errorf "can't attach %v to network namespace" t)), w)
  | some attach =>
    let r := AttachRawLink { Target := ns, Program := prog, Attach := attach } w
    match r.1.2 with
    | some err => (.ret none (some err), r.2)
    | none =>
      match r.1.1 with
      | none => (.panic, r.2)
      | some link => (.ret (some { RawLink := link }) none, r.2)

/-- LoadPinnedNetNs loads a network namespace link from bpffs (netns.go:41-48). -/
def LoadPinnedNetNs (fileName : String) (opts : Option LoadPinOptions) (w : World) :
    Outcome NetNsLink × World :=
  let r := LoadPinnedRawLink fileName .NetNsType opts w
  match r.1.2 with
  | some err => (.ret none (some err), r.2)
  | none =>
    match r.1.1 with
    | none => (.panic, r.2)
    | some link => (.ret (some { RawLink := link }) none, r.2)

/-- The calls a run added to the trace: the trace after the run without the
calls that were there before it. -/
def newCalls (before after : World) : List Call :=
  after.trace.drop before.trace.length

/-- The attach types of the `AttachRawLink` calls of a trace, in order. -/
def attachTypesOf : List Call → List AttachType
  | [] => []
  | .AttachRawLink opts :: rest => opts.Attach :: attachTypesOf rest
  | _ :: rest => attachTypesOf rest

/-- The number of `AttachRawLink` calls of a trace. -/
def countAttachRawLink : List Call → Nat
  | [] => 0
  | .AttachRawLink _ :: rest => countAttachRawLink rest + 1
  | _ :: rest => countAttachRawLink rest

/-- A world with an empty trace in which every call fails with `NotSupported`:
a kernel without generic link objects. -/
def worldNoLinks : World :=
  { trace := [], oracle := fun _ _ => (none, some .NotSupported) }

/-- A world with an empty trace in which every call succeeds with a link of
descriptor 7. -/
def worldLinks : World :=
  { trace := [], oracle := fun _ _ => (some { fd := 7, status := .Open }, none) }

/-- A flow dissector program. -/
def progFlow : Program :=
  { id := 1, typ := .FlowDissector, expectedAttachType := .AttachFlowDissector }

/-- A socket lookup program. -/
def progLookup : Program :=
  { id := 2, typ := .SkLookup, expectedAttachType := .AttachSkLookup }

/-- A tracing program. -/
def progTrace : Program :=
  { id := 3, typ := .Tracing, expectedAttachType := .AttachTraceIter }

/-! ## The fentry example (`examples/fentry/main.go`) -/

/-- The method `binary.BigEndian.PutUint32` of the Go library: after a bounds
check on `b[3]` (a failed check panics: `none`) it stores `byte(v >> 24)`,
`byte(v >> 16)`, `byte(v >> 8)` and `byte(v)` in `b[0]` to `b[3]`. -/
def PutUint32 (b : List Nat) (v : Nat) : Option (List Nat) :=
  if b.length ≤ 3 then none
  else
    some ((((b.set 0 ((v >>> 24) % 256)).set 1 ((v >>> 16) % 256)).set 2
      ((v >>> 8) % 256)).set 3 (v % 256))

/-- The method `binary.BigEndian.Uint32` of the Go library, the decoder that
goes with `PutUint32`: `b[3] | b[2]<<8 | b[1]<<16 | b[0]<<24` on `uint32`
(`none`: the bounds check on `b[3]` panics). -/
def Uint32 (b : List Nat) : Option Nat :=
  match b with
  | b0 :: b1 :: b2 :: b3 :: _ =>
    some ((b3 ||| (b2 <<< 8) % 2 ^ 32 ||| (b1 <<< 16) % 2 ^ 32 ||| (b0 <<< 24) % 2 ^ 32) % 2 ^ 32)
  | _ => none

/-- The function intToIP converts IPv4 number to net.IP (main.go:113-117):
`make(net.IP, 4)` is four zero bytes, which `PutUint32` then fills. -/
def intToIP (ipNum : Nat) : Option (List Nat) :=
  let ip := List.replicate 4 0
  PutUint32 ip ipNum

/-- The fields of the struct `bpfEvent` that main.go reads (lines 103-107); the
struct is generated by bpf2go and is not among the sources. -/
structure bpfEvent where
  Comm : List Nat
  Saddr : Nat
  Sport : Nat
  Daddr : Nat
  Dport : Nat
  deriving DecidableEq, Repr

/-- A record of the ring buffer; main.go reads its field `RawSample`. -/
structure Record where
  RawSample : List Nat
  deriving DecidableEq, Repr

/-- One outcome of `rd.Read()`: the pair `(record, err)`. -/
structure ReadResult where
  record : Record
  err : Option Error
  deriving DecidableEq, Repr

/-- The function `errors.Is` of the Go library on the errors of this model:
`err` matches `target` when it equals it or wraps an error that matches. -/
def errorsIs : Error → Error → Bool
  | .Wrap msg inner, target =>
    if Error.Wrap msg inner = target then true else errorsIs inner target
  | err, target => decide (err = target)

/-- An argument of a `log` call. -/
inductive Arg where
  | str (s : String)
  | err (e : Error)
  | bytes (b : List Nat)
  | ip (addr : List Nat)
  | num (n : Nat)
  deriving DecidableEq, Repr

/-- One call of package `log`, which writes one line. -/
inductive LogLine where
  | Println (args : List Arg)
  | Printf (format : String) (args : List Arg)
  deriving DecidableEq, Repr

/-- How a run of the event loop over the supplied outcomes ends: `main` returns,
or it waits in `rd.Read()` for an outcome beyond the supplied ones, or it
panics. -/
inductive LoopStatus where
  | returned
  | blocked
  | panicked
  deriving DecidableEq, Repr

/-- A run of the event loop: how it ends, how many outcomes of `rd.Read()` it
consumed, the lines it logged in order, and the variable `event` at the end. -/
structure LoopResult where
  status : LoopStatus
  reads : Nat
  log : List LogLine
  event : bpfEvent
  deriving DecidableEq, Repr

/-- One more iteration in front of a run: one more outcome consumed, its lines
first. -/
def LoopResult.after (lines : List LogLine) (r : LoopResult) : LoopResult :=
  { r with reads := r.reads + 1, log := lines ++ r.log }

/-- The event loop of `main` (main.go:84-109) over the outcomes that successive
calls of `rd.Read()` return, starting with the variable `event` as given.
`binaryRead raw event` stands for
`binary.Read(bytes.NewBuffer(raw), binary.BigEndian, &event)`: it gives the
variable `event` after the call and the error returned; the layout of
`bpfEvent` it decodes is generated code that is not among the sources. -/
def eventLoop (binaryRead : List Nat → bpfEvent → bpfEvent × Option Error) :
    List ReadResult → bpfEvent → LoopResult
  | [], event => { status := .blocked, reads := 0, log := [], event := event }
  | r :: rest, event =>
    match r.err with
    | some err =>
      if errorsIs err .ErrClosed then
        { status := .returned, reads := 1,
          log := [.Println [.str "received signal, exiting.."]], event := event }
      else
        (eventLoop binaryRead rest event).after [.Printf "reading from reader: %s" [.err err]]
    | none =>
      let d := binaryRead r.record.RawSample event
      match d.2 with
      | some err =>
        (eventLoop binaryRead rest d.1).after [.Printf "parsing ringbuf event: %s" [.err err]]
      | none =>
        match intToIP d.1.Saddr, intToIP d.1.Daddr with
        | some saddr, some daddr =>
          (eventLoop binaryRead rest d.1).after
            [.Printf "%-16s %-15s %-6d -> %-15s %-6d"
              [.bytes d.1.Comm, .ip saddr, .num d.1.Sport, .ip daddr, .num d.1.Dport]]
        | _, _ => { status := .panicked, reads := 1, log := [], event := d.1 }

/-- Whether an outcome of `rd.Read()` carries an error that is `ErrClosed` in the
sense of `errors.Is`. -/
def ReadResult.isClosed (r : ReadResult) : Bool :=
  match r.err with
  | some err => errorsIs err .ErrClosed
  | none => false

/-- The output line of an event, following main.go:102-108 with each address
written as its four big-endian bytes. -/
def outputLine (event : bpfEvent) : LogLine :=
  .Printf "%-16s %-15s %-6d -> %-15s %-6d"
    [.bytes event.Comm,
      .ip [(event.Saddr >>> 24) % 256, (event.Saddr >>> 16) % 256, (event.Saddr >>> 8) % 256,
        event.Saddr % 256],
      .num event.Sport,
      .ip [(event.Daddr >>> 24) % 256, (event.Daddr >>> 16) % 256, (event.Daddr >>> 8) % 256,
        event.Daddr % 256],
      .num event.Dport]

/-- The lines the outcomes before the closing one are to produce, following the
words of the claim: a read error is logged and skipped, a record that fails to
parse is logged and skipped, and a parsed record gives one output line. It also
gives the variable `event` after the last outcome. -/
def expectedLog (binaryRead : List Nat → bpfEvent → bpfEvent × Option Error) :
    List ReadResult → bpfEvent → List LogLine × bpfEvent
  | [], event => ([], event)
  | r :: rest, event =>
    match r.err with
    | some err =>
      let t := expectedLog binaryRead rest event
      (.Printf "reading from reader: %s" [.err err] :: t.1, t.2)
    | none =>
      let d := binaryRead r.record.RawSample event
      match d.2 with
      | some err =>
        let t := expectedLog binaryRead rest d.1
        (.Printf "parsing ringbuf event: %s" [.err err] :: t.1, t.2)
      | none =>
        let t := expectedLog binaryRead rest d.1
        (outputLine d.1 :: t.1, t.2)

/-- The events of the records that parse, in the order read: the outcomes
without a read error on which `binaryRead` returns no error. -/
def parsedEvents (binaryRead : List Nat → bpfEvent → bpfEvent × Option Error) :
    List ReadResult → bpfEvent → List bpfEvent
  | [], _ => []
  | r :: rest, event =>
    match r.err with
    | some _ => parsedEvents binaryRead rest event
    | none =>
      let d := binaryRead r.record.RawSample event
      match d.2 with
      | some _ => parsedEvents binaryRead rest d.1
      | none => d.1 :: parsedEvents binaryRead rest d.1

/-- Whether a logged line is an output line of an event (the last `log.Printf`
of the loop, main.go:102). -/
def LogLine.isOutput : LogLine → Bool
  | .Printf format _ => decide (format = "%-16s %-15s %-6d -> %-15s %-6d")
  | _ => false

/-- A decoder for the sample run: a raw sample of fewer than 4 bytes fails to
parse, any other one gives an event whose source address is its first four
bytes read as a big-endian number. -/
def sampleRead (raw : List Nat) (event : bpfEvent) : bpfEvent × Option Error :=
  match raw with
  | b0 :: b1 :: b2 :: b3 :: _ =>
    ({ event with Saddr := b0 * 2 ^ 24 + b1 * 2 ^ 16 + b2 * 2 ^ 8 + b3 }, none)
  | _ => (event, some (.Errno 5))

/-- The outcomes of the sample run before the reader is closed: a read error, a
record that parses and a record that does not. -/
def sampleBefore : List ReadResult :=
  [{ record := { RawSample := [] }, err := some (.Errno 4) },
    { record := { RawSample := [10, 0, 2, 15] }, err := none },
    { record := { RawSample := [1] }, err := none }]

/-- The outcome of the sample run that reports the closed reader, with
`ErrClosed` wrapped. -/
def sampleClosed : ReadResult :=
  { record := { RawSample := [] }, err := some (.Wrap "ringbuffer" .ErrClosed) }

/-- The variable `event` before the loop: the zero value. -/
def zeroEvent : bpfEvent :=
  { Comm := [], Saddr := 0, Sport := 0, Daddr := 0, Dport := 0 }

/-! ## Iterator links (`link/iter_test.go` exercises them; `link/iter.go` is not
among the sources) -/

/-- Modelled from the spec: a loaded map (section 6) with the elements the
kernel walks when an iterator is bound to it; `iterable` says whether its map
type can be iterated. -/
structure LoadedMap where
  id : Nat
  iterable : Bool
  elems : List (List Nat × List Nat)
  deriving DecidableEq, Repr

/-- Modelled from the spec: an iterator program (glossary): a loaded program
that the kernel invokes repeatedly; `emit elem` is what one invocation writes
into the stream, for the element it is invoked on (`none` for the invocation of
an iterator without a bound map). -/
structure IterProgram where
  prog : Program
  emit : Option (List Nat × List Nat) → List Nat

/-- Modelled from the spec: the iterator link of section 4.4, declared in
`link/iter.go`: a link with its program and its optional bound map. -/
structure Iter where
  RawLink : RawLink
  program : IterProgram
  map : Option LoadedMap

/-- Modelled from the spec: what the kernel answers to one `Open` and to the
reads of the stream it gives. Opening re-invokes the kernel to create a
per-open descriptor (sections 2 and 4.4), and that call can fail: a syscall
error is surfaced as it is (section 7), and the object behind a pinned link may
be gone (section 3); `openErr` is that error, `none` when the call succeeds.
A read can fail in the same way: `readFailure = some (n, e)` says that the
kernel reports `e` once `n` invocations of the program have run. -/
structure OpenAnswer where
  openErr : Option Error
  readFailure : Option (Nat × Error)
  deriving DecidableEq, Repr

/-- Modelled from the spec: the byte stream `Open` returns (section 4.4): the
invocations of the program that reading it causes, the failure the kernel
reports while it is read, if any, and whether the stream has been closed. -/
structure ByteStream where
  program : IterProgram
  invocations : List (Option (List Nat × List Nat))
  readFailure : Option (Nat × Error)
  closed : Bool

/-- Modelled from the spec: `Open(link) -> ByteStream | Error` of section 4.4,
declared in `link/iter.go`. An operation on a closed handle fails with
`ErrClosed` (section 7); otherwise the kernel is asked for a per-open
descriptor, and its error, if any, is returned as it is; otherwise the call
gives a fresh stream over a traversal from the start, with one invocation per
element when a map is bound and one in total otherwise. -/
def Iter.Open (it : Iter) (k : OpenAnswer) : Option ByteStream × Option Error :=
  if it.RawLink.status = .Closed then (none, some .ErrClosed)
  else
    match k.openErr with
    | some err => (none, some err)
    | none =>
      let invocations : List (Option (List Nat × List Nat)) :=
        match it.map with
        | some m => m.elems.map some
        | none => [none]
      (some { program := it.program, invocations := invocations,
              readFailure := k.readFailure, closed := false }, none)

/-- The assumption on the calls the wrappers delegate to: after every history
and for every call, the raw link returned is non-nil exactly when the error
returned is nil. -/
def World.wellFormed (w : World) : Prop :=
  ∀ (history : List Call) (c : Call),
    (w.oracle history c).1 ≠ none ↔ (w.oracle history c).2 = none

/-! ## Shared lemmas on the wrappers -/

/-- The pair a wrapper returns from the `(*RawLink, error)` pair of the call it
delegates to (netns.go:31-35 and 43-47). -/
def wrapRawLink (r : Option RawLink × Option Error) : Outcome NetNsLink :=
  match r.2 with
  | some err => .ret none (some err)
  | none =>
    match r.1 with
    | none => .panic
    | some link => .ret (some { RawLink := link }) none

/-- A run that appends `cs` to the trace has added the calls `cs`. -/
theorem newCalls_append (w w1 : World) (cs : List Call) (h : w1.trace = w.trace ++ cs) :
    newCalls w w1 = cs := by
  simp [newCalls, h]

/-- A run that leaves the world as it was has added no call. -/
theorem newCalls_self (w : World) : newCalls w w = [] := by
  simp [newCalls]

/-- On a flow dissector program `AttachNetNs` is the wrapped `AttachRawLink` call
with `AttachFlowDissector`. -/
theorem AttachNetNs_flow (ns : Int) (prog : Program) (w : World)
    (h : prog.Type_ = .FlowDissector) :
    AttachNetNs ns prog w =
      (wrapRawLink (AttachRawLink
          { Target := ns, Program := prog, Attach := .AttachFlowDissector } w).1,
        (AttachRawLink { Target := ns, Program := prog, Attach := .AttachFlowDissector } w).2) := by
  simp only [AttachNetNs, h, wrapRawLink]
  cases (AttachRawLink { Target := ns, Program := prog, Attach := .AttachFlowDissector } w).1.2 with
  | some e => rfl
  | none =>
    cases (AttachRawLink { Target := ns, Program := prog, Attach := .AttachFlowDissector } w).1.1 <;>
      rfl

/-- On a socket lookup program `AttachNetNs` is the wrapped `AttachRawLink` call
with `AttachSkLookup`. -/
theorem AttachNetNs_lookup (ns : Int) (prog : Program) (w : World)
    (h : prog.Type_ = .SkLookup) :
    AttachNetNs ns prog w =
      (wrapRawLink (AttachRawLink
          { Target := ns, Program := prog, Attach := .AttachSkLookup } w).1,
        (AttachRawLink { Target := ns, Program := prog, Attach := .AttachSkLookup } w).2) := by
  simp only [AttachNetNs, h, wrapRawLink]
  cases (AttachRawLink { Target := ns, Program := prog, Attach := .AttachSkLookup } w).1.2 with
  | some e => rfl
  | none =>
    cases (AttachRawLink { Target := ns, Program := prog, Attach := .AttachSkLookup } w).1.1 <;>
      rfl

/-- On any other program type `AttachNetNs` returns the error of netns.go:23 and
leaves the world as it was. -/
theorem AttachNetNs_reject (ns : Int) (prog : Program) (w : World)
    (hf : prog.Type_ ≠ .FlowDissector) (hs : prog.Type_ ≠ .SkLookup) :
    AttachNetNs ns prog w =
      (.ret none (some (.Errorf "can't attach %v to network namespace" prog.Type_)), w) := by
  unfold AttachNetNs
  cases h : prog.Type_ with
  | FlowDissector => exact absurd h hf
  | SkLookup => exact absurd h hs
  | Tracing => rfl
  | other code => rfl

/-- The function `LoadPinnedNetNs` is the wrapped `LoadPinnedRawLink` call for the
kind `NetNsType`. -/
theorem LoadPinnedNetNs_eq (fileName : String) (opts : Option LoadPinOptions) (w : World) :
    LoadPinnedNetNs fileName opts w =
      (wrapRawLink (LoadPinnedRawLink fileName .NetNsType opts w).1,
        (LoadPinnedRawLink fileName .NetNsType opts w).2) := by
  simp only [LoadPinnedNetNs, wrapRawLink]
  cases (LoadPinnedRawLink fileName .NetNsType opts w).1.2 with
  | some e => rfl
  | none =>
    cases (LoadPinnedRawLink fileName .NetNsType opts w).1.1 <;> rfl

/-! ## Network namespace links -/

/-- C1: for every namespace `ns`, program `prog` and world, the calls
`AttachNetNs ns prog` adds to the trace are exactly one `AttachRawLink` with
`Target = ns`, `Program = prog` and `Attach = AttachFlowDissector` when the
program type is `FlowDissector`, and with `Attach = AttachSkLookup` when it is
`SkLookup`; and two runs on programs of the same type issue the same attach
types, whatever the namespaces, the worlds and the expected attach types of the
programs are. -/
theorem AttachNetNs_attach_options (ns : Int) (prog : Program) (w : World) :
    (prog.Type_ = .FlowDissector →
      newCalls w (AttachNetNs ns prog w).2 =
        [.AttachRawLink { Target := ns, Program := prog, Attach := .AttachFlowDissector }]) ∧
    (prog.Type_ = .SkLookup →
      newCalls w (AttachNetNs ns prog w).2 =
        [.AttachRawLink { Target := ns, Program := prog, Attach := .AttachSkLookup }]) ∧
    (∀ (ns' : Int) (prog' : Program) (w' : World), prog'.Type_ = prog.Type_ →
      attachTypesOf (newCalls w' (AttachNetNs ns' prog' w').2) =
        attachTypesOf (newCalls w (AttachNetNs ns prog w).2)) := by
  have flow : ∀ (n : Int) (p : Program) (v : World), p.Type_ = .FlowDissector →
      newCalls v (AttachNetNs n p v).2 =
        [.AttachRawLink { Target := n, Program := p, Attach := .AttachFlowDissector }] := by
    intro n p v h
    rw [AttachNetNs_flow n p v h]
    exact newCalls_append _ _ _ rfl
  have lookup : ∀ (n : Int) (p : Program) (v : World), p.Type_ = .SkLookup →
      newCalls v (AttachNetNs n p v).2 =
        [.AttachRawLink { Target := n, Program := p, Attach := .AttachSkLookup }] := by
    intro n p v h
    rw [AttachNetNs_lookup n p v h]
    exact newCalls_append _ _ _ rfl
  have reject : ∀ (n : Int) (p : Program) (v : World), p.Type_ ≠ .FlowDissector →
      p.Type_ ≠ .SkLookup → newCalls v (AttachNetNs n p v).2 = [] := by
    intro n p v hf hs
    rw [AttachNetNs_reject n p v hf hs]
    exact newCalls_self v
  refine ⟨flow ns prog w, lookup ns prog w, ?_⟩
  intro ns' prog' w' h
  by_cases hf : prog.Type_ = .FlowDissector
  · rw [flow ns prog w hf, flow ns' prog' w' (h.trans hf)]
    rfl
  · by_cases hs : prog.Type_ = .SkLookup
    · rw [lookup ns prog w hs, lookup ns' prog' w' (h.trans hs)]
      rfl
    · rw [reject ns prog w hf hs, reject ns' prog' w' (h ▸ hf) (h ▸ hs)]

/-- Witness of C1: a flow dissector program attached to namespace 4. -/
theorem AttachNetNs_attach_options_witness :
    newCalls worldLinks (AttachNetNs 4 progFlow worldLinks).2 =
      [.AttachRawLink { Target := 4, Program := progFlow, Attach := .AttachFlowDissector }] :=
  (AttachNetNs_attach_options 4 progFlow worldLinks).1 rfl

/-- C2: for every namespace and every program whose type is neither
`FlowDissector` nor `SkLookup`, `AttachNetNs` returns a nil link together with
the error built at netns.go:23 from the program type (the error the spec calls
UnsupportedProgramType). -/
theorem AttachNetNs_unsupported_type (ns : Int) (prog : Program) (w : World)
    (hf : prog.Type_ ≠ .FlowDissector) (hs : prog.Type_ ≠ .SkLookup) :
    (AttachNetNs ns prog w).1 =
      .ret none (some (.Errorf "can't attach %v to network namespace" prog.Type_)) := by
  rw [AttachNetNs_reject ns prog w hf hs]

/-- Witness of C2: a tracing program is refused. -/
theorem AttachNetNs_unsupported_type_witness :
    (AttachNetNs 4 progTrace worldLinks).1 =
      .ret none (some (.Errorf "can't attach %v to network namespace" .Tracing)) :=
  AttachNetNs_unsupported_type 4 progTrace worldLinks (by decide) (by decide)

/-- C3: for every namespace and every program of type `FlowDissector` or
`SkLookup`, when the `AttachRawLink` call that `AttachNetNs` issues returns the
error `e` (with whatever link value), `AttachNetNs` returns a nil link and that
same `e`, and the only call it has made is that one `AttachRawLink`: no
`RawAttachProgram` of the fallback link is in the trace it added. -/
theorem AttachNetNs_attach_error (ns : Int) (prog : Program) (w : World) (e : Error)
    (attach : AttachType)
    (ht : (prog.Type_ = .FlowDissector ∧ attach = .AttachFlowDissector) ∨
      (prog.Type_ = .SkLookup ∧ attach = .AttachSkLookup))
    (he : (AttachRawLink { Target := ns, Program := prog, Attach := attach } w).1.2 = some e) :
    (AttachNetNs ns prog w).1 = .ret none (some e) ∧
    newCalls w (AttachNetNs ns prog w).2 =
      [.AttachRawLink { Target := ns, Program := prog, Attach := attach }] ∧
    ∀ (target : Int) (p : Program) (a : AttachType),
      Call.RawAttachProgram target p a ∉ newCalls w (AttachNetNs ns prog w).2 := by
  have key : AttachNetNs ns prog w =
      (wrapRawLink (AttachRawLink { Target := ns, Program := prog, Attach := attach } w).1,
        (AttachRawLink { Target := ns, Program := prog, Attach := attach } w).2) := by
    rcases ht with ⟨h, rfl⟩ | ⟨h, rfl⟩
    · exact AttachNetNs_flow ns prog w h
    · exact AttachNetNs_lookup ns prog w h
  have calls : newCalls w (AttachNetNs ns prog w).2 =
      [.AttachRawLink { Target := ns, Program := prog, Attach := attach }] := by
    rw [key]
    exact newCalls_append _ _ _ rfl
  refine ⟨?_, calls, ?_⟩
  · rw [key]
    simp only [wrapRawLink, he]
  · intro target p a hmem
    rw [calls] at hmem
    simp at hmem

/-- Witness of C3: on a kernel without generic link objects the attach of a
socket lookup program fails with `NotSupported`, which is returned as is. -/
theorem AttachNetNs_attach_error_witness :
    (AttachNetNs 4 progLookup worldNoLinks).1 = .ret none (some .NotSupported) ∧
    newCalls worldNoLinks (AttachNetNs 4 progLookup worldNoLinks).2 =
      [.AttachRawLink { Target := 4, Program := progLookup, Attach := .AttachSkLookup }] ∧
    ∀ (target : Int) (p : Program) (a : AttachType),
      Call.RawAttachProgram target p a ∉
        newCalls worldNoLinks (AttachNetNs 4 progLookup worldNoLinks).2 :=
  AttachNetNs_attach_error 4 progLookup worldNoLinks .NotSupported .AttachSkLookup
    (Or.inr ⟨rfl, rfl⟩) rfl

/-- C4: for every file name, options and world, `LoadPinnedNetNs fileName opts`
makes exactly one call, `LoadPinnedRawLink` with the same file name and options
and the kind `NetNsType`; when that call returns an error `e` (such as
`NotFound` or `WrongType`) the result is a nil link and that same `e`, and when
it returns a raw link and a nil error the result is a `NetNsLink` embedding that
raw link, with a nil error. -/
theorem LoadPinnedNetNs_delegates (fileName : String) (opts : Option LoadPinOptions)
    (w : World) :
    newCalls w (LoadPinnedNetNs fileName opts w).2 =
      [.LoadPinnedRawLink fileName .NetNsType opts] ∧
    (∀ (l : Option RawLink) (e : Error),
      (LoadPinnedRawLink fileName .NetNsType opts w).1 = (l, some e) →
        (LoadPinnedNetNs fileName opts w).1 = .ret none (some e)) ∧
    (∀ (l : RawLink),
      (LoadPinnedRawLink fileName .NetNsType opts w).1 = (some l, none) →
        (LoadPinnedNetNs fileName opts w).1 = .ret (some { RawLink := l }) none) := by
  refine ⟨?_, ?_, ?_⟩
  · rw [LoadPinnedNetNs_eq]
    exact newCalls_append _ _ _ rfl
  · intro l e h
    rw [LoadPinnedNetNs_eq]
    simp only [wrapRawLink, h]
  · intro l h
    rw [LoadPinnedNetNs_eq]
    simp only [wrapRawLink, h]

/-- Witness of C4: loading a pin where the pinned object has another kind. -/
theorem LoadPinnedNetNs_delegates_witness :
    (LoadPinnedNetNs "/sys/fs/bpf/link" none
      { trace := [], oracle := fun _ _ => (none, some .WrongType) }).1 =
      .ret none (some .WrongType) :=
  (LoadPinnedNetNs_delegates "/sys/fs/bpf/link" none
    { trace := [], oracle := fun _ _ => (none, some .WrongType) }).2.1 none .WrongType rfl

/-- C7: `AttachNetNs` checks the program type before anything else: for a
program whose type is neither `FlowDissector` nor `SkLookup` it returns its
error with the world left as it was, so that no `AttachRawLink` call is made;
for a program of an accepted type it adds exactly one call to the trace and
that call is an `AttachRawLink`. -/
theorem AttachNetNs_validates_first (ns : Int) (prog : Program) (w : World) :
    (prog.Type_ ≠ .FlowDissector → prog.Type_ ≠ .SkLookup →
      (∃ e, (AttachNetNs ns prog w).1 = .ret none (some e)) ∧
      (AttachNetNs ns prog w).2 = w ∧
      countAttachRawLink (newCalls w (AttachNetNs ns prog w).2) = 0) ∧
    (prog.Type_ = .FlowDissector ∨ prog.Type_ = .SkLookup →
      (newCalls w (AttachNetNs ns prog w).2).length = 1 ∧
      countAttachRawLink (newCalls w (AttachNetNs ns prog w).2) = 1) := by
  constructor
  · intro hf hs
    rw [AttachNetNs_reject ns prog w hf hs]
    exact ⟨⟨_, rfl⟩, rfl, by rw [newCalls_self]; rfl⟩
  · intro h
    rcases h with h | h
    · rw [AttachNetNs_flow ns prog w h, newCalls_append _ _ _ rfl]
      exact ⟨rfl, rfl⟩
    · rw [AttachNetNs_lookup ns prog w h, newCalls_append _ _ _ rfl]
      exact ⟨rfl, rfl⟩

/-- Witness of C7: a tracing program reaches no attach call, a flow dissector
program reaches one. -/
theorem AttachNetNs_validates_first_witness :
    countAttachRawLink (newCalls worldLinks (AttachNetNs 4 progTrace worldLinks).2) = 0 ∧
    countAttachRawLink (newCalls worldLinks (AttachNetNs 4 progFlow worldLinks).2) = 1 :=
  ⟨((AttachNetNs_validates_first 4 progTrace worldLinks).1 (by decide) (by decide)).2.2,
    ((AttachNetNs_validates_first 4 progFlow worldLinks).2 (Or.inl rfl)).2⟩

/-- C10: in a world where the delegated calls return a non-nil raw link exactly
when they return a nil error, `AttachNetNs` and `LoadPinnedNetNs` never panic
on a nil raw link, the pair each returns has a non-nil link exactly when its
error is nil, and a returned link embeds the raw link that the one call made
by the wrapper returned. -/
theorem netns_link_iff_no_error (w : World) (hw : w.wellFormed) (ns : Int) (prog : Program)
    (fileName : String) (opts : Option LoadPinOptions) :
    ((AttachNetNs ns prog w).1 ≠ .panic ∧
      (∀ l e, (AttachNetNs ns prog w).1 = .ret l e → (l ≠ none ↔ e = none)) ∧
      (∀ l e, (AttachNetNs ns prog w).1 = .ret (some l) e →
        ∃ c, newCalls w (AttachNetNs ns prog w).2 = [c] ∧
          (w.oracle w.trace c).1 = some l.RawLink)) ∧
    ((LoadPinnedNetNs fileName opts w).1 ≠ .panic ∧
      (∀ l e, (LoadPinnedNetNs fileName opts w).1 = .ret l e → (l ≠ none ↔ e = none)) ∧
      (∀ l e, (LoadPinnedNetNs fileName opts w).1 = .ret (some l) e →
        ∃ c, newCalls w (LoadPinnedNetNs fileName opts w).2 = [c] ∧
          (w.oracle w.trace c).1 = some l.RawLink)) := by
  have wrap : ∀ (c : Call), wrapRawLink (w.oracle w.trace c) ≠ .panic ∧
      (∀ l e, wrapRawLink (w.oracle w.trace c) = .ret l e → (l ≠ none ↔ e = none)) ∧
      (∀ l e, wrapRawLink (w.oracle w.trace c) = .ret (some l) e →
        (w.oracle w.trace c).1 = some l.RawLink) := by
    intro c
    have hc := hw w.trace c
    unfold wrapRawLink
    cases h2 : (w.oracle w.trace c).2 with
    | some err =>
      refine ⟨by simp, ?_, ?_⟩
      · intro l e h
        simp at h
        simp [← h.1, ← h.2]
      · intro l e h
        simp at h
    | none =>
      cases h1 : (w.oracle w.trace c).1 with
      | none =>
        rw [h1, h2] at hc
        simp at hc
      | some link =>
        refine ⟨by simp, ?_, ?_⟩
        · intro l e h
          simp at h
          simp [← h.1, ← h.2]
        · intro l e h
          simp at h
          simp [← h.1]
  constructor
  · by_cases hf : prog.Type_ = .FlowDissector
    · rw [AttachNetNs_flow ns prog w hf]
      have := wrap (.AttachRawLink { Target := ns, Program := prog, Attach := .AttachFlowDissector })
      exact ⟨this.1, this.2.1, fun l e h => ⟨_, newCalls_append _ _ _ rfl, this.2.2 l e h⟩⟩
    · by_cases hs : prog.Type_ = .SkLookup
      · rw [AttachNetNs_lookup ns prog w hs]
        have := wrap (.AttachRawLink { Target := ns, Program := prog, Attach := .AttachSkLookup })
        exact ⟨this.1, this.2.1, fun l e h => ⟨_, newCalls_append _ _ _ rfl, this.2.2 l e h⟩⟩
      · rw [AttachNetNs_reject ns prog w hf hs]
        refine ⟨by simp, ?_, ?_⟩
        · intro l e h
          simp at h
          simp [← h.1, ← h.2]
        · intro l e h
          simp at h
  · rw [LoadPinnedNetNs_eq]
    have := wrap (.LoadPinnedRawLink fileName .NetNsType opts)
    exact ⟨this.1, this.2.1, fun l e h => ⟨_, newCalls_append _ _ _ rfl, this.2.2 l e h⟩⟩

/-- Witness of C10: a world where every call succeeds with a link. -/
theorem netns_link_iff_no_error_witness :
    (AttachNetNs 4 progFlow worldLinks).1 ≠ .panic ∧
    (LoadPinnedNetNs "/sys/fs/bpf/link" none worldLinks).1 ≠ .panic :=
  ⟨(netns_link_iff_no_error worldLinks (fun _ _ => by simp [worldLinks]) 4 progFlow
      "/sys/fs/bpf/link" none).1.1,
    (netns_link_iff_no_error worldLinks (fun _ _ => by simp [worldLinks]) 4 progFlow
      "/sys/fs/bpf/link" none).2.1⟩

/-! ## The fentry example -/

/-- The four bytes `intToIP` returns. -/
theorem intToIP_eq (ipNum : Nat) :
    intToIP ipNum =
      some [(ipNum >>> 24) % 256, (ipNum >>> 16) % 256, (ipNum >>> 8) % 256, ipNum % 256] := by
  simp [intToIP, PutUint32, List.replicate]

/-- On four bytes the decoder `Uint32` is the base-256 number they spell, most
significant byte first. -/
theorem Uint32_bytes (b0 b1 b2 b3 : Nat) (h0 : b0 < 256) (h1 : b1 < 256) (h2 : b2 < 256)
    (h3 : b3 < 256) :
    Uint32 [b0, b1, b2, b3] = some (b0 * 2 ^ 24 + b1 * 2 ^ 16 + b2 * 2 ^ 8 + b3) := by
  have e2 : (b2 <<< 8) % 2 ^ 32 = 2 ^ 8 * b2 := by
    rw [Nat.shiftLeft_eq]; omega
  have e1 : (b1 <<< 16) % 2 ^ 32 = 2 ^ 16 * b1 := by
    rw [Nat.shiftLeft_eq]; omega
  have e0 : (b0 <<< 24) % 2 ^ 32 = 2 ^ 24 * b0 := by
    rw [Nat.shiftLeft_eq]; omega
  have o2 : b3 ||| 2 ^ 8 * b2 = 2 ^ 8 * b2 + b3 := by
    rw [Nat.or_comm]
    exact (Nat.mul_add_lt_is_or (by omega) b2).symm
  have o1 : (2 ^ 8 * b2 + b3) ||| 2 ^ 16 * b1 = 2 ^ 16 * b1 + (2 ^ 8 * b2 + b3) := by
    rw [Nat.or_comm]
    exact (Nat.mul_add_lt_is_or (by omega) b1).symm
  have o0 : (2 ^ 16 * b1 + (2 ^ 8 * b2 + b3)) ||| 2 ^ 24 * b0 =
      2 ^ 24 * b0 + (2 ^ 16 * b1 + (2 ^ 8 * b2 + b3)) := by
    rw [Nat.or_comm]
    exact (Nat.mul_add_lt_is_or (by omega) b0).symm
  simp only [Uint32, e2, e1, e0, o2, o1, o0, Option.some.injEq]
  omega

/-- C8: for every `ipNum` below `2 ^ 32`, `intToIP ipNum` returns (it does not
panic) an IP of exactly 4 bytes whose byte `i` is `(ipNum >> (8 * (3 - i))) mod
256` for `i = 0..3`; decoding these bytes as a big-endian `uint32` gives
`ipNum` back, and any other 32-bit number with the same IP is `ipNum`. -/
theorem intToIP_big_endian (ipNum : Nat) (h : ipNum < 2 ^ 32) :
    ∃ ip, intToIP ipNum = some ip ∧ ip.length = 4 ∧
      (∀ i, i < 4 → ip[i]? = some ((ipNum >>> (8 * (3 - i))) % 256)) ∧
      Uint32 ip = some ipNum ∧
      (∀ other, other < 2 ^ 32 → intToIP other = some ip → other = ipNum) := by
  refine ⟨_, intToIP_eq ipNum, rfl, ?_, ?_, ?_⟩
  · intro i hi
    interval_cases i <;> rfl
  · rw [Uint32_bytes _ _ _ _ (Nat.mod_lt _ (by decide)) (Nat.mod_lt _ (by decide))
      (Nat.mod_lt _ (by decide)) (Nat.mod_lt _ (by decide))]
    simp only [Nat.shiftRight_eq_div_pow, Option.some.injEq]
    omega
  · intro other ho heq
    rw [intToIP_eq] at heq
    simp only [Option.some.injEq, List.cons.injEq, and_true, Nat.shiftRight_eq_div_pow] at heq
    omega

/-- Witness of C8: the address 10.0.2.15 of the sample output. -/
theorem intToIP_big_endian_witness :
    ∃ ip, intToIP 167772687 = some ip ∧ ip.length = 4 ∧
      (∀ i, i < 4 → ip[i]? = some ((167772687 >>> (8 * (3 - i))) % 256)) ∧
      Uint32 ip = some 167772687 ∧
      (∀ other, other < 2 ^ 32 → intToIP other = some ip → other = 167772687) :=
  intToIP_big_endian 167772687 (by decide)

/-- Over outcomes none of which reports the closed reader, the loop logs what
`expectedLog` gives and goes on with the remaining outcomes. -/
theorem eventLoop_append (binaryRead : List Nat → bpfEvent → bpfEvent × Option Error)
    (pre rest : List ReadResult) (event : bpfEvent)
    (hpre : ∀ x ∈ pre, x.isClosed = false) :
    eventLoop binaryRead (pre ++ rest) event =
      { status := (eventLoop binaryRead rest (expectedLog binaryRead pre event).2).status,
        reads := pre.length + (eventLoop binaryRead rest (expectedLog binaryRead pre event).2).reads,
        log := (expectedLog binaryRead pre event).1 ++
          (eventLoop binaryRead rest (expectedLog binaryRead pre event).2).log,
        event := (eventLoop binaryRead rest (expectedLog binaryRead pre event).2).event } := by
  induction pre generalizing event with
  | nil => simp [expectedLog]
  | cons r pre ih =>
    have hr : r.isClosed = false := hpre r (List.mem_cons_self _ _)
    have hrest : ∀ x ∈ pre, x.isClosed = false := fun x hx => hpre x (List.mem_cons_of_mem _ hx)
    rw [List.cons_append]
    cases herr : r.err with
    | some err =>
      have hc : errorsIs err .ErrClosed = false := by
        simpa [ReadResult.isClosed, herr] using hr
      simp only [eventLoop, expectedLog, herr, hc, ih event hrest, LoopResult.after]
      simp [Nat.add_assoc, Nat.add_comm]
    | none =>
      cases hd : (binaryRead r.record.RawSample event).2 with
      | some err =>
        simp only [eventLoop, expectedLog, herr, hd,
          ih (binaryRead r.record.RawSample event).1 hrest, LoopResult.after]
        simp [Nat.add_assoc, Nat.add_comm]
      | none =>
        simp only [eventLoop, expectedLog, herr, hd, intToIP_eq,
          ih (binaryRead r.record.RawSample event).1 hrest, LoopResult.after]
        simp [Nat.add_assoc, Nat.add_comm, outputLine]

/-- The output lines among the expected lines are those of the parsed events, in
order. -/
theorem expectedLog_outputs (binaryRead : List Nat → bpfEvent → bpfEvent × Option Error)
    (pre : List ReadResult) (event : bpfEvent) :
    (expectedLog binaryRead pre event).1.filter LogLine.isOutput =
      (parsedEvents binaryRead pre event).map outputLine := by
  induction pre generalizing event with
  | nil => simp [expectedLog, parsedEvents]
  | cons r pre ih =>
    cases herr : r.err with
    | some err =>
      simp only [expectedLog, parsedEvents, herr]
      rw [List.filter_cons_of_neg (by simp [LogLine.isOutput])]
      exact ih event
    | none =>
      cases hd : (binaryRead r.record.RawSample event).2 with
      | some err =>
        simp only [expectedLog, parsedEvents, herr, hd]
        rw [List.filter_cons_of_neg (by simp [LogLine.isOutput])]
        exact ih _
      | none =>
        simp only [expectedLog, parsedEvents, herr, hd, List.map_cons]
        rw [List.filter_cons_of_pos (by simp [LogLine.isOutput, outputLine])]
        rw [ih _]

/-- C9: for every sequence of outcomes of `rd.Read()`, the event loop returns
at the first outcome whose error is `ErrClosed` (in the sense of `errors.Is`)
and at no other: when `r` is the first such outcome the loop consumes the
outcomes up to and including `r` and returns, having logged for the outcomes
before `r` one line each in the order read (a read error, a parse error or the
output line of the parsed event) followed by the exit message; when no outcome
is such the loop does not return on any of them, consuming them all and logging
one line each. In both cases the output lines in the log are exactly those of
the records that parsed, in the order read. -/
theorem eventLoop_returns_at_first_closed
    (binaryRead : List Nat → bpfEvent → bpfEvent × Option Error)
    (outcomes : List ReadResult) (event : bpfEvent) :
    (∀ (pre : List ReadResult) (r : ReadResult) (post : List ReadResult),
      outcomes = pre ++ r :: post → (∀ x ∈ pre, x.isClosed = false) → r.isClosed = true →
        (eventLoop binaryRead outcomes event).status = .returned ∧
        (eventLoop binaryRead outcomes event).reads = pre.length + 1 ∧
        (eventLoop binaryRead outcomes event).log =
          (expectedLog binaryRead pre event).1 ++ [.Println [.str "received signal, exiting.."]] ∧
        (eventLoop binaryRead outcomes event).log.filter LogLine.isOutput =
          (parsedEvents binaryRead pre event).map outputLine) ∧
    ((∀ x ∈ outcomes, x.isClosed = false) →
        (eventLoop binaryRead outcomes event).status = .blocked ∧
        (eventLoop binaryRead outcomes event).reads = outcomes.length ∧
        (eventLoop binaryRead outcomes event).log = (expectedLog binaryRead outcomes event).1 ∧
        (eventLoop binaryRead outcomes event).log.filter LogLine.isOutput =
          (parsedEvents binaryRead outcomes event).map outputLine) := by
  constructor
  · intro pre r post hsplit hpre hr
    have hhead : ∀ e, eventLoop binaryRead (r :: post) e =
        { status := .returned, reads := 1,
          log := [.Println [.str "received signal, exiting.."]], event := e } := by
      intro e
      cases herr : r.err with
      | none => simp [ReadResult.isClosed, herr] at hr
      | some err =>
        have hc : errorsIs err .ErrClosed = true := by
          simpa [ReadResult.isClosed, herr] using hr
        simp only [eventLoop, herr, hc, if_true]
    rw [hsplit, eventLoop_append binaryRead pre (r :: post) event hpre, hhead]
    refine ⟨rfl, rfl, rfl, ?_⟩
    simp only [List.filter_append, expectedLog_outputs]
    simp [LogLine.isOutput]
  · intro hall
    have h := eventLoop_append binaryRead outcomes [] event hall
    rw [List.append_nil] at h
    rw [h]
    simp only [eventLoop, List.append_nil, Nat.add_zero]
    exact ⟨trivial, trivial, trivial, expectedLog_outputs binaryRead outcomes event⟩

/-- Witness of C9: the sample run, closed at its fourth outcome with one more
outcome behind it. -/
theorem eventLoop_returns_at_first_closed_witness :
    (eventLoop sampleRead (sampleBefore ++ sampleClosed :: [sampleClosed]) zeroEvent).status =
      .returned ∧
    (eventLoop sampleRead (sampleBefore ++ sampleClosed :: [sampleClosed]) zeroEvent).reads =
      sampleBefore.length + 1 :=
  ⟨((eventLoop_returns_at_first_closed sampleRead
      (sampleBefore ++ sampleClosed :: [sampleClosed]) zeroEvent).1
      sampleBefore sampleClosed [sampleClosed] rfl (by decide) (by decide)).1,
    ((eventLoop_returns_at_first_closed sampleRead
      (sampleBefore ++ sampleClosed :: [sampleClosed]) zeroEvent).1
      sampleBefore sampleClosed [sampleClosed] rfl (by decide) (by decide)).2.1⟩

/-! ## Iterator links -/

end Ebpf
